import Mathlib

/-!
Verification development for the `NestedJSONLoader` of
`langchain/document_loaders/nested_json_loader.py`.

The file shallowly embeds the loader's pure core: the recursive
`flatten_json` closure of `_flatten__nested_json`, and the record
emission loop of `load`.  Parsed JSON values are modelled by the
inductive type `Json` (objects keep the parser's insertion order and,
as produced by `json.loads`, have unique keys); the nonlocal `out`
dict that `flatten_json` mutates is threaded explicitly as an
association list with Python's insert-or-update-in-place semantics;
the `TypeError` that Python raises when `key_name + identifier + '_'`
concatenates a non-string is modelled with `Except Unit`.
-/

namespace NestedJSON

/-- A parsed JSON value, as returned by `json.loads`: objects are
insertion-ordered string-keyed mappings, arrays are ordered sequences,
scalars are strings, numbers, booleans and null.  Numbers are modelled
as integers (no claim involves fractional values). -/
inductive Json where
  | null : Json
  | bool (b : Bool) : Json
  | num (n : Int) : Json
  | str (s : String) : Json
  | arr (xs : List Json) : Json
  | obj (kvs : List (String × Json)) : Json

/-- `d[k]` on a Python dict represented as an insertion-ordered
association list with unique keys: the first (hence only) binding of
`k`, if any. -/
def lookupKV : List (String × Json) → String → Option Json
  | [], _ => none
  | (k, v) :: rest, key => if k = key then some v else lookupKV rest key

/-- `d[k] = v` on a Python dict: if `k` is already bound its value is
updated in place (the entry keeps its position), otherwise the new
binding is appended at the end. -/
def insertOrUpdate : List (String × Json) → String → Json → List (String × Json)
  | [], k, v => [(k, v)]
  | (k0, v0) :: rest, k, v =>
    if k0 = k then (k, v) :: rest else (k0, v0) :: insertOrUpdate rest k v

/-- Python's `s[:-1]`: drop the last character (the identity on the
empty string). -/
def strInit (s : String) : String := String.mk s.data.dropLast

/-- Models the statement
`try: identifier = a[a['identifier']] except: identifier = str(i)`
of `flatten_json`.  Every failure of the subscription — `a` not a
dict, `a` lacking an `'identifier'` key, a non-string value at
`'identifier'` (JSON dict keys are strings, so subscripting with it
raises `KeyError`/`TypeError`), or the named key being absent — is
caught by the bare `except` and yields `str(i)`. -/
def identifierValue (a : Json) (i : Nat) : Json :=
  match a with
  | Json.obj kvs =>
    match lookupKV kvs "identifier" with
    | some (Json.str s) =>
      match lookupKV kvs s with
      | some v => v
      | none => Json.str (toString i)
    | _ => Json.str (toString i)
  | _ => Json.str (toString i)

/-- The identifier segment actually usable by `flatten_json`: after the
`try`/`except`, the concatenation `key_name + identifier + '_'`
requires `identifier` to be a string; a non-string `identifier`
(possible only when the lookup succeeded with a non-string value)
raises an uncaught `TypeError`, modelled as `Except.error ()`. -/
def identSeg (a : Json) (i : Nat) : Except Unit String :=
  match identifierValue a i with
  | Json.str s => Except.ok s
  | _ => Except.error ()

mutual

/-- The recursive closure `flatten_json(json_data, key_name='')` of
`_flatten__nested_json`, with the nonlocal dict `out` threaded
explicitly.  Dicts recurse per entry (skipping the `'identifier'`
key), lists recurse per element with the identifier segment, and
anything else is a leaf recorded at `key_name[:-1]`. -/
def flattenJson : Json → String → List (String × Json) →
    Except Unit (List (String × Json))
  | Json.obj kvs, kn, out => flattenObj kvs kn out
  | Json.arr xs, kn, out => flattenArr xs 0 kn out
  | Json.null, kn, out => Except.ok (insertOrUpdate out (strInit kn) Json.null)
  | Json.bool b, kn, out => Except.ok (insertOrUpdate out (strInit kn) (Json.bool b))
  | Json.num n, kn, out => Except.ok (insertOrUpdate out (strInit kn) (Json.num n))
  | Json.str s, kn, out => Except.ok (insertOrUpdate out (strInit kn) (Json.str s))
termination_by structural j _ _ => j

/-- The `for a in json_data:` loop of the dict branch of
`flatten_json`: entries whose key is exactly `'identifier'` are
skipped, the rest recurse with the key path extended by the key and a
separator. -/
def flattenObj : List (String × Json) → String → List (String × Json) →
    Except Unit (List (String × Json))
  | [], _, out => Except.ok out
  | (k, v) :: rest, kn, out =>
    if k = "identifier" then flattenObj rest kn out
    else
      match flattenJson v (kn ++ k ++ "_") out with
      | Except.error e => Except.error e
      | Except.ok out1 => flattenObj rest kn out1
termination_by structural kvs _ _ => kvs

/-- The `for a in json_data:` loop of the list branch of
`flatten_json`, with the running index `i`: each element recurses with
the key path extended by its identifier segment; a non-string
identifier aborts with the uncaught `TypeError`. -/
def flattenArr : List Json → Nat → String → List (String × Json) →
    Except Unit (List (String × Json))
  | [], _, _, out => Except.ok out
  | a :: rest, i, kn, out =>
    match identSeg a i with
    | Except.error e => Except.error e
    | Except.ok s =>
      match flattenJson a (kn ++ s ++ "_") out with
      | Except.error e => Except.error e
      | Except.ok out1 => flattenArr rest (i + 1) kn out1
termination_by structural xs _ _ _ => xs

end

/-- `_flatten__nested_json` after parsing: run `flatten_json` on the
root with the empty key path and an empty `out` dict. -/
def flattenTop (j : Json) : Except Unit (List (String × Json)) :=
  flattenJson j "" []

mutual

/-- The sequence of writes `out[key_name[:-1]] = json_data` that
`flatten_json` performs, in traversal order, without the dict's
overwrite-on-collision behaviour.  Used to relate the produced mapping
to the traversal (see `flattenJson_eq_trace`). -/
def traceJson : Json → String → Except Unit (List (String × Json))
  | Json.obj kvs, kn => traceObj kvs kn
  | Json.arr xs, kn => traceArr xs 0 kn
  | Json.null, kn => Except.ok [(strInit kn, Json.null)]
  | Json.bool b, kn => Except.ok [(strInit kn, Json.bool b)]
  | Json.num n, kn => Except.ok [(strInit kn, Json.num n)]
  | Json.str s, kn => Except.ok [(strInit kn, Json.str s)]
termination_by structural j _ => j

/-- Write trace of the dict branch of `flatten_json`. -/
def traceObj : List (String × Json) → String → Except Unit (List (String × Json))
  | [], _ => Except.ok []
  | (k, v) :: rest, kn =>
    if k = "identifier" then traceObj rest kn
    else
      match traceJson v (kn ++ k ++ "_") with
      | Except.error e => Except.error e
      | Except.ok tr1 =>
        match traceObj rest kn with
        | Except.error e => Except.error e
        | Except.ok tr2 => Except.ok (tr1 ++ tr2)
termination_by structural kvs _ => kvs

/-- Write trace of the list branch of `flatten_json`. -/
def traceArr : List Json → Nat → String → Except Unit (List (String × Json))
  | [], _, _ => Except.ok []
  | a :: rest, i, kn =>
    match identSeg a i with
    | Except.error e => Except.error e
    | Except.ok s =>
      match traceJson a (kn ++ s ++ "_") with
      | Except.error e => Except.error e
      | Except.ok tr1 =>
        match traceArr rest (i + 1) kn with
        | Except.error e => Except.error e
        | Except.ok tr2 => Except.ok (tr1 ++ tr2)
termination_by structural xs _ _ => xs

end

mutual

/-- Like `traceJson`, but recording at each leaf the *raw* accumulated
`key_name` (before the `[:-1]` strip).  Relating this to `traceJson`
(see `traceJson_eq_paths`) shows each recorded key is the strip of the
actual accumulated key path of that write. -/
def pathsJson : Json → String → Except Unit (List (String × Json))
  | Json.obj kvs, kn => pathsObj kvs kn
  | Json.arr xs, kn => pathsArr xs 0 kn
  | Json.null, kn => Except.ok [(kn, Json.null)]
  | Json.bool b, kn => Except.ok [(kn, Json.bool b)]
  | Json.num n, kn => Except.ok [(kn, Json.num n)]
  | Json.str s, kn => Except.ok [(kn, Json.str s)]
termination_by structural j _ => j

/-- Raw key paths of the dict branch of `flatten_json`. -/
def pathsObj : List (String × Json) → String → Except Unit (List (String × Json))
  | [], _ => Except.ok []
  | (k, v) :: rest, kn =>
    if k = "identifier" then pathsObj rest kn
    else
      match pathsJson v (kn ++ k ++ "_") with
      | Except.error e => Except.error e
      | Except.ok p1 =>
        match pathsObj rest kn with
        | Except.error e => Except.error e
        | Except.ok p2 => Except.ok (p1 ++ p2)
termination_by structural kvs _ => kvs

/-- Raw key paths of the list branch of `flatten_json`. -/
def pathsArr : List Json → Nat → String → Except Unit (List (String × Json))
  | [], _, _ => Except.ok []
  | a :: rest, i, kn =>
    match identSeg a i with
    | Except.error e => Except.error e
    | Except.ok s =>
      match pathsJson a (kn ++ s ++ "_") with
      | Except.error e => Except.error e
      | Except.ok p1 =>
        match pathsArr rest (i + 1) kn with
        | Except.error e => Except.error e
        | Except.ok p2 => Except.ok (p1 ++ p2)
termination_by structural xs _ _ => xs

end

/-- Turn a (raw accumulated key path, value) pair into the write
`flatten_json` actually performs: `out[key_name[:-1]] = value`. -/
def stripEntry (kv : String × Json) : String × Json := (strInit kv.1, kv.2)

/-- Replay a write trace against a dict: fold `d[k] = v` over the
writes in order. -/
def applyWrites (out : List (String × Json)) (tr : List (String × Json)) :
    List (String × Json) :=
  tr.foldl (fun o kv => insertOrUpdate o kv.1 kv.2) out

/-- One character of Python's `json.dumps` string escaping (default
options, on the ASCII inputs this development uses). -/
def escapeChar (c : Char) : String :=
  if c = '\"' then "\\\""
  else if c = '\\' then "\\\\"
  else if c = '\n' then "\\n"
  else if c = '\t' then "\\t"
  else if c = '\r' then "\\r"
  else if c.toNat = 8 then "\\b"
  else if c.toNat = 12 then "\\f"
  else if c.toNat < 32 then
    "\\u00" ++ String.mk [(Nat.digitChar (c.toNat / 16)), (Nat.digitChar (c.toNat % 16))]
  else String.singleton c

/-- Python `json.dumps` escaping of a string body. -/
def escapeStr (s : String) : String :=
  s.data.foldl (fun acc c => acc ++ escapeChar c) ""

mutual

/-- Python's `json.dumps` with default options: item separator `", "`,
key separator `": "`, `null`/`true`/`false` literals. -/
def dumps : Json → String
  | Json.null => "null"
  | Json.bool true => "true"
  | Json.bool false => "false"
  | Json.num n => toString n
  | Json.str s => "\"" ++ escapeStr s ++ "\""
  | Json.arr xs => "[" ++ dumpsList xs ++ "]"
  | Json.obj kvs => "\x7b" ++ dumpsObj kvs ++ "\x7d"
termination_by structural j => j

/-- Array items of `json.dumps`, joined by `", "`. -/
def dumpsList : List Json → String
  | [] => ""
  | [x] => dumps x
  | x :: rest => dumps x ++ ", " ++ dumpsList rest
termination_by structural xs => xs

/-- Object entries of `json.dumps`, joined by `", "`. -/
def dumpsObj : List (String × Json) → String
  | [] => ""
  | [(k, v)] => "\"" ++ escapeStr k ++ "\": " ++ dumps v
  | (k, v) :: rest => "\"" ++ escapeStr k ++ "\": " ++ dumps v ++ ", " ++ dumpsObj rest
termination_by structural kvs => kvs

end

/-- The metadata dict `dict(source=..., seq_num=i)` built by `load`. -/
structure Metadata where
  source : String
  seq_num : Nat

/-- A `langchain` `Document`: page content plus metadata. -/
structure Document where
  page_content : String
  metadata : Metadata

/-- The payload computation of `load` for one flattened item `sample`:
`text = dict([sample]) or ""` (a one-entry dict, so the falsy branch
is only reachable for an empty dict), then `json.dumps` if the result
is a dict or list. -/
def payloadOf (kv : String × Json) : String :=
  let d := [kv]
  if d.isEmpty then "" else dumps (Json.obj d)

/-- The loop `for i, sample in enumerate(data.items(), 1)` of `load`:
one `Document` per flattened entry, with 1-based `seq_num` counting
from `i`. -/
def emitFrom : List (String × Json) → Nat → String → List Document
  | [], _, _ => []
  | kv :: rest, i, src =>
    { page_content := payloadOf kv, metadata := { source := src, seq_num := i } } ::
      emitFrom rest (i + 1) src

/-- Record emission of `load`, starting the sequence numbers at 1. -/
def emitRecords (data : List (String × Json)) (src : String) : List Document :=
  emitFrom data 1 src

/-- `NestedJSONLoader.load` after file reading and parsing: flatten
the parsed value and emit one `Document` per flattened entry.  The
`metadataFunc` parameter models the loader's stored `_metadata_func`;
faithfully to the source, `load` never consults it. -/
def load (j : Json) (sourceLabel : String)
    (metadataFunc : Option (Json → Metadata → Metadata)) :
    Except Unit (List Document) :=
  (flattenTop j).map (fun data => emitRecords data sourceLabel)

/-- Outcome of the external collaborators of `load`: reading
`self.file_path` and `json.loads`. -/
inductive LoadInput where
  | readError : LoadInput
  | parseError : LoadInput
  | parsed (j : Json) : LoadInput

/-- The error kinds observable from the public entry point. -/
inductive LoadError where
  | fileAccess : LoadError
  | parse : LoadError
  | typeError : LoadError

/-- The public entry point including the external collaborators: a
failed read surfaces as a file-access error, malformed JSON as a parse
error before flattening begins, and a `TypeError` raised inside
`flatten_json` (non-string identifier value) propagates unhandled. -/
def loadEntry (inp : LoadInput) (sourceLabel : String)
    (metadataFunc : Option (Json → Metadata → Metadata)) :
    Except LoadError (List Document) :=
  match inp with
  | LoadInput.readError => Except.error LoadError.fileAccess
  | LoadInput.parseError => Except.error LoadError.parse
  | LoadInput.parsed j =>
    match load j sourceLabel metadataFunc with
    | Except.error _ => Except.error LoadError.typeError
    | Except.ok docs => Except.ok docs

/-- Whether a value is a Python dict (`type(x) is dict`). -/
def Json.isObj : Json → Bool
  | Json.obj _ => true
  | _ => false

/-- Whether a value is a Python string. -/
def Json.isStr : Json → Bool
  | Json.str _ => true
  | _ => false

/-- Whether a value is a scalar (neither dict nor list). -/
def Json.isScalar : Json → Bool
  | Json.obj _ => false
  | Json.arr _ => false
  | _ => true

/-- The documented example input:
`{"key": [{"identifier": "text", "text": "value1"}, {"identifier": "text", "text": "value2"}]}`. -/
def exC5 : Json :=
  Json.obj [("key", Json.arr
    [Json.obj [("identifier", Json.str "text"), ("text", Json.str "value1")],
     Json.obj [("identifier", Json.str "text"), ("text", Json.str "value2")]])]

/-- A colliding input: both `{"a": {"x": 1}}` and the sibling key
`"a_x"` flatten to the key path `"a_x"`. -/
def exCollide : Json :=
  Json.obj [("a", Json.obj [("x", Json.num 1)]), ("a_x", Json.num 2)]

/-- The write trace of `exCollide`: the key `"a_x"` is written twice,
first with `1` and later with `2`. -/
def exCollideTr : List (String × Json) :=
  [("a_x", Json.num 1), ("a_x", Json.num 2)]

/-- A collision-free document with two scalar leaves. -/
def exC8 : Json := Json.obj [("a", Json.num 1), ("b", Json.num 2)]

/-- The write trace of `exC8`. -/
def exC8tr : List (String × Json) := [("a", Json.num 1), ("b", Json.num 2)]

/-! ## Dict lemmas -/

theorem lookupKV_append (l1 l2 : List (String × Json)) (key : String) :
    lookupKV (l1 ++ l2) key = (lookupKV l1 key).or (lookupKV l2 key) := by
  induction l1 with
  | nil => simp [lookupKV]
  | cons kv rest ih =>
    obtain ⟨k, v⟩ := kv
    by_cases hk : k = key
    · simp [lookupKV, hk]
    · simp [lookupKV, hk, ih]

theorem lookupKV_insertOrUpdate (out : List (String × Json)) (k0 : String) (v : Json)
    (key : String) :
    lookupKV (insertOrUpdate out k0 v) key =
      if k0 = key then some v else lookupKV out key := by
  induction out with
  | nil => simp [insertOrUpdate, lookupKV]
  | cons kv rest ih =>
    obtain ⟨k1, v1⟩ := kv
    by_cases h1 : k1 = k0
    · subst h1
      by_cases h2 : k1 = key <;> simp [insertOrUpdate, lookupKV, h2]
    · by_cases h2 : k1 = key
      · subst h2
        have h3 : ¬ k0 = k1 := fun h => h1 h.symm
        simp [insertOrUpdate, lookupKV, h1, h3]
      · simp [insertOrUpdate, lookupKV, h1, h2, ih]

theorem insertOrUpdate_of_lookup_none (out : List (String × Json)) (k : String) (v : Json)
    (h : lookupKV out k = none) : insertOrUpdate out k v = out ++ [(k, v)] := by
  induction out with
  | nil => simp [insertOrUpdate]
  | cons kv rest ih =>
    obtain ⟨k1, v1⟩ := kv
    by_cases h1 : k1 = k
    · simp [lookupKV, h1] at h
    · simp [lookupKV, h1] at h
      simp [insertOrUpdate, h1, ih h]

theorem applyWrites_nil (out : List (String × Json)) : applyWrites out [] = out := rfl

theorem applyWrites_cons (out : List (String × Json)) (kv : String × Json)
    (tr : List (String × Json)) :
    applyWrites out (kv :: tr) = applyWrites (insertOrUpdate out kv.1 kv.2) tr := rfl

theorem applyWrites_append (out tr1 tr2 : List (String × Json)) :
    applyWrites out (tr1 ++ tr2) = applyWrites (applyWrites out tr1) tr2 :=
  List.foldl_append _ _ _ _

theorem lookupKV_applyWrites (tr : List (String × Json)) (out : List (String × Json))
    (key : String) :
    lookupKV (applyWrites out tr) key = (lookupKV tr.reverse key).or (lookupKV out key) := by
  induction tr generalizing out with
  | nil => simp [applyWrites, lookupKV]
  | cons kv tr ih =>
    rw [applyWrites_cons, ih, List.reverse_cons, lookupKV_append]
    cases h : lookupKV tr.reverse key with
    | some v => simp
    | none =>
      simp only [Option.none_or]
      rw [lookupKV_insertOrUpdate]
      by_cases hk : kv.1 = key <;> simp [lookupKV, hk]

theorem applyWrites_eq_append (tr : List (String × Json)) (out : List (String × Json))
    (hdisj : ∀ k ∈ tr.map Prod.fst, lookupKV out k = none)
    (hnd : (tr.map Prod.fst).Nodup) : applyWrites out tr = out ++ tr := by
  induction tr generalizing out with
  | nil => simp [applyWrites]
  | cons kv tr ih =>
    obtain ⟨k0, v0⟩ := kv
    have h0 : lookupKV out k0 = none := hdisj k0 (by simp)
    rw [applyWrites_cons, insertOrUpdate_of_lookup_none out k0 v0 h0]
    simp only [List.map_cons, List.nodup_cons] at hnd
    rw [ih (out ++ [(k0, v0)]) ?_ hnd.2]
    · simp
    · intro k hk
      rw [lookupKV_append, hdisj k (by simp [hk]), Option.none_or]
      have hne : ¬ k0 = k := fun h => hnd.1 (h ▸ hk)
      simp [lookupKV, hne]

theorem mem_map_fst_insertOrUpdate (out : List (String × Json)) (k0 : String) (v : Json)
    (k : String) (h : k ∈ (insertOrUpdate out k0 v).map Prod.fst) :
    k = k0 ∨ k ∈ out.map Prod.fst := by
  induction out with
  | nil =>
    simp [insertOrUpdate] at h
    exact Or.inl h
  | cons kv rest ih =>
    obtain ⟨k1, v1⟩ := kv
    by_cases h1 : k1 = k0
    · rw [insertOrUpdate, if_pos h1] at h
      simp only [List.map_cons, List.mem_cons] at h
      rcases h with h | h
      · exact Or.inl h
      · exact Or.inr (by simp [h])
    · rw [insertOrUpdate, if_neg h1] at h
      simp only [List.map_cons, List.mem_cons] at h
      rcases h with h | h
      · exact Or.inr (by simp [h])
      · rcases ih h with h2 | h2
        · exact Or.inl h2
        · exact Or.inr (by simp [h2])

theorem mem_map_fst_applyWrites (tr : List (String × Json)) (out : List (String × Json))
    (k : String) (h : k ∈ (applyWrites out tr).map Prod.fst) :
    k ∈ out.map Prod.fst ∨ k ∈ tr.map Prod.fst := by
  induction tr generalizing out with
  | nil => exact Or.inl h
  | cons kv tr ih =>
    rw [applyWrites_cons] at h
    rcases ih _ h with h1 | h1
    · rcases mem_map_fst_insertOrUpdate out kv.1 kv.2 k h1 with h2 | h2
      · exact Or.inr (by simp [h2])
      · exact Or.inl h2
    · exact Or.inr (by simp [h1])

theorem emitFrom_length (data : List (String × Json)) (i : Nat) (src : String) :
    (emitFrom data i src).length = data.length := by
  induction data generalizing i with
  | nil => rfl
  | cons kv rest ih => simp [emitFrom, ih]

/-! ## The flattener replays its write trace -/

mutual

theorem flattenJson_eq_trace (j : Json) (kn : String) (out : List (String × Json)) :
    flattenJson j kn out = (traceJson j kn).map (applyWrites out) := by
  cases j with
  | obj kvs =>
    rw [flattenJson, traceJson]
    exact flattenObj_eq_trace kvs kn out
  | arr xs =>
    rw [flattenJson, traceJson]
    exact flattenArr_eq_trace xs 0 kn out
  | null => simp [flattenJson, traceJson, Except.map, applyWrites]
  | bool b => simp [flattenJson, traceJson, Except.map, applyWrites]
  | num n => simp [flattenJson, traceJson, Except.map, applyWrites]
  | str s => simp [flattenJson, traceJson, Except.map, applyWrites]
termination_by structural j

theorem flattenObj_eq_trace (kvs : List (String × Json)) (kn : String)
    (out : List (String × Json)) :
    flattenObj kvs kn out = (traceObj kvs kn).map (applyWrites out) := by
  cases kvs with
  | nil => simp [flattenObj, traceObj, Except.map, applyWrites]
  | cons kv rest =>
    obtain ⟨k, v⟩ := kv
    by_cases hk : k = "identifier"
    · rw [flattenObj, traceObj, if_pos hk, if_pos hk]
      exact flattenObj_eq_trace rest kn out
    · rw [flattenObj, traceObj, if_neg hk, if_neg hk,
        flattenJson_eq_trace v (kn ++ k ++ "_") out]
      cases h1 : traceJson v (kn ++ k ++ "_") with
      | error e => simp [Except.map]
      | ok tr1 =>
        simp only [Except.map]
        rw [flattenObj_eq_trace rest kn (applyWrites out tr1)]
        cases h2 : traceObj rest kn with
        | error e => simp [Except.map]
        | ok tr2 => simp [Except.map, applyWrites_append]
termination_by structural kvs

theorem flattenArr_eq_trace (xs : List Json) (i : Nat) (kn : String)
    (out : List (String × Json)) :
    flattenArr xs i kn out = (traceArr xs i kn).map (applyWrites out) := by
  cases xs with
  | nil => simp [flattenArr, traceArr, Except.map, applyWrites]
  | cons a rest =>
    rw [flattenArr, traceArr]
    cases hs : identSeg a i with
    | error e => simp [Except.map]
    | ok s =>
      simp only
      rw [flattenJson_eq_trace a (kn ++ s ++ "_") out]
      cases h1 : traceJson a (kn ++ s ++ "_") with
      | error e => simp [Except.map]
      | ok tr1 =>
        simp only [Except.map]
        rw [flattenArr_eq_trace rest (i + 1) kn (applyWrites out tr1)]
        cases h2 : traceArr rest (i + 1) kn with
        | error e => simp [Except.map]
        | ok tr2 => simp [Except.map, applyWrites_append]
termination_by structural xs

end

/-! ## The write trace strips one character off the raw key paths -/

mutual

theorem traceJson_eq_paths (j : Json) (kn : String) :
    traceJson j kn = (pathsJson j kn).map (List.map stripEntry) := by
  cases j with
  | obj kvs =>
    rw [traceJson, pathsJson]
    exact traceObj_eq_paths kvs kn
  | arr xs =>
    rw [traceJson, pathsJson]
    exact traceArr_eq_paths xs 0 kn
  | null => simp [traceJson, pathsJson, Except.map, stripEntry]
  | bool b => simp [traceJson, pathsJson, Except.map, stripEntry]
  | num n => simp [traceJson, pathsJson, Except.map, stripEntry]
  | str s => simp [traceJson, pathsJson, Except.map, stripEntry]
termination_by structural j

theorem traceObj_eq_paths (kvs : List (String × Json)) (kn : String) :
    traceObj kvs kn = (pathsObj kvs kn).map (List.map stripEntry) := by
  cases kvs with
  | nil => simp [traceObj, pathsObj, Except.map]
  | cons kv rest =>
    obtain ⟨k, v⟩ := kv
    by_cases hk : k = "identifier"
    · rw [traceObj, pathsObj, if_pos hk, if_pos hk]
      exact traceObj_eq_paths rest kn
    · rw [traceObj, pathsObj, if_neg hk, if_neg hk,
        traceJson_eq_paths v (kn ++ k ++ "_")]
      cases h1 : pathsJson v (kn ++ k ++ "_") with
      | error e => simp [Except.map]
      | ok p1 =>
        simp only [Except.map]
        rw [traceObj_eq_paths rest kn]
        cases h2 : pathsObj rest kn with
        | error e => simp [Except.map]
        | ok p2 => simp [Except.map]
termination_by structural kvs

theorem traceArr_eq_paths (xs : List Json) (i : Nat) (kn : String) :
    traceArr xs i kn = (pathsArr xs i kn).map (List.map stripEntry) := by
  cases xs with
  | nil => simp [traceArr, pathsArr, Except.map]
  | cons a rest =>
    rw [traceArr, pathsArr]
    cases hs : identSeg a i with
    | error e => simp [Except.map]
    | ok s =>
      simp only
      rw [traceJson_eq_paths a (kn ++ s ++ "_")]
      cases h1 : pathsJson a (kn ++ s ++ "_") with
      | error e => simp [Except.map]
      | ok p1 =>
        simp only [Except.map]
        rw [traceArr_eq_paths rest (i + 1) kn]
        cases h2 : pathsArr rest (i + 1) kn with
        | error e => simp [Except.map]
        | ok p2 => simp [Except.map]
termination_by structural xs

end

/-! ## Shape of the raw key paths a traversal writes at -/

mutual

theorem pathsJson_key_form (j : Json) (kn : String) (ptr : List (String × Json))
    (hkn : kn = "" ∨ ∃ q, kn = q ++ "_") (h : pathsJson j kn = Except.ok ptr) :
    ∀ kv ∈ ptr, kv.1 = "" ∨ ∃ q, kv.1 = q ++ "_" := by
  cases j with
  | obj kvs =>
    rw [pathsJson] at h
    exact pathsObj_key_form kvs kn ptr hkn h
  | arr xs =>
    rw [pathsJson] at h
    exact pathsArr_key_form xs 0 kn ptr hkn h
  | null =>
    rw [pathsJson] at h
    simp only [Except.ok.injEq] at h
    subst h
    intro kv hkv
    simp only [List.mem_singleton] at hkv
    rw [hkv]
    exact hkn
  | bool b =>
    rw [pathsJson] at h
    simp only [Except.ok.injEq] at h
    subst h
    intro kv hkv
    simp only [List.mem_singleton] at hkv
    rw [hkv]
    exact hkn
  | num n =>
    rw [pathsJson] at h
    simp only [Except.ok.injEq] at h
    subst h
    intro kv hkv
    simp only [List.mem_singleton] at hkv
    rw [hkv]
    exact hkn
  | str s =>
    rw [pathsJson] at h
    simp only [Except.ok.injEq] at h
    subst h
    intro kv hkv
    simp only [List.mem_singleton] at hkv
    rw [hkv]
    exact hkn
termination_by structural j

theorem pathsObj_key_form (kvs : List (String × Json)) (kn : String)
    (ptr : List (String × Json)) (hkn : kn = "" ∨ ∃ q, kn = q ++ "_")
    (h : pathsObj kvs kn = Except.ok ptr) :
    ∀ kv ∈ ptr, kv.1 = "" ∨ ∃ q, kv.1 = q ++ "_" := by
  cases kvs with
  | nil =>
    rw [pathsObj] at h
    simp only [Except.ok.injEq] at h
    subst h
    simp
  | cons kv0 rest =>
    obtain ⟨k, v⟩ := kv0
    by_cases hk : k = "identifier"
    · rw [pathsObj, if_pos hk] at h
      exact pathsObj_key_form rest kn ptr hkn h
    · rw [pathsObj, if_neg hk] at h
      cases h1 : pathsJson v (kn ++ k ++ "_") with
      | error e => rw [h1] at h; simp at h
      | ok p1 =>
        rw [h1] at h
        cases h2 : pathsObj rest kn with
        | error e => rw [h2] at h; simp at h
        | ok p2 =>
          rw [h2] at h
          simp only [Except.ok.injEq] at h
          subst h
          intro kv hkv
          rcases List.mem_append.mp hkv with h3 | h3
          · exact pathsJson_key_form v (kn ++ k ++ "_") p1 (Or.inr ⟨kn ++ k, rfl⟩) h1 kv h3
          · exact pathsObj_key_form rest kn p2 hkn h2 kv h3
termination_by structural kvs

theorem pathsArr_key_form (xs : List Json) (i : Nat) (kn : String)
    (ptr : List (String × Json)) (hkn : kn = "" ∨ ∃ q, kn = q ++ "_")
    (h : pathsArr xs i kn = Except.ok ptr) :
    ∀ kv ∈ ptr, kv.1 = "" ∨ ∃ q, kv.1 = q ++ "_" := by
  cases xs with
  | nil =>
    rw [pathsArr] at h
    simp only [Except.ok.injEq] at h
    subst h
    simp
  | cons a rest =>
    rw [pathsArr] at h
    cases hs : identSeg a i with
    | error e => rw [hs] at h; simp at h
    | ok s =>
      rw [hs] at h
      dsimp only at h
      cases h1 : pathsJson a (kn ++ s ++ "_") with
      | error e => rw [h1] at h; simp at h
      | ok p1 =>
        rw [h1] at h
        cases h2 : pathsArr rest (i + 1) kn with
        | error e => rw [h2] at h; simp at h
        | ok p2 =>
          rw [h2] at h
          simp only [Except.ok.injEq] at h
          subst h
          intro kv hkv
          rcases List.mem_append.mp hkv with h3 | h3
          · exact pathsJson_key_form a (kn ++ s ++ "_") p1 (Or.inr ⟨kn ++ s, rfl⟩) h1 kv h3
          · exact pathsArr_key_form rest (i + 1) kn p2 hkn h2 kv h3
termination_by structural xs

end


/-! ## Claim theorems -/

/-- Claim C1 (code bug witness): `load` never invokes the supplied
metadata-transform callback.  `__init__` stores `metadata_func` (its
docstring says it "returns a dict of the updated metadata"), but the
body of `load` builds `metadata = dict(source=..., seq_num=i)` and
never consults `self._metadata_func`.  Hence for every callback `f`,
loading `{"a": 1}` yields one record whose metadata is the default
`source`/`seq_num` pair, regardless of `f` — contradicting the claim
that the callback's return value appears on the record and that it is
invoked once per record. -/
theorem c1_metadata_func_ignored (f : Json → Metadata → Metadata) :
    load (Json.obj [("a", Json.num 1)]) "src" (some f) =
      Except.ok [{ page_content := "\x7b\"a\": 1\x7d",
                   metadata := { source := "src", seq_num := 1 } }] := rfl

/-- Claim C2 (code bug witness): a flattened entry whose value is null
is emitted with payload `'\x7b"a": null\x7d'`, not the empty string.
The source's comment says "In case the text is None, set it to an
empty string", but `text = dict([text]) or ""` tests the truthiness of
the one-entry dict `dict([sample])`, which is always truthy, so the
empty-string branch is dead and the `\x7bkey: null\x7d` pairing is
serialized like any other. -/
theorem c2_null_payload :
    load (Json.obj [("a", Json.null)]) "src" none =
      Except.ok [{ page_content := "\x7b\"a\": null\x7d",
                   metadata := { source := "src", seq_num := 1 } }] := rfl

/-- Claim C3, counterexample: the flattener is not total.  On
`{"a": [{"identifier": "v", "v": true}]}` the identifier lookup
`a[a['identifier']]` succeeds with the non-string `True`; the
concatenation `key_name + identifier + '_'` then raises a `TypeError`
outside the `try`, which propagates to the caller instead of falling
back to the index segment. -/
theorem c3_counterexample :
    flattenTop (Json.obj [("a", Json.arr
      [Json.obj [("identifier", Json.str "v"), ("v", Json.bool true)]])]) =
      Except.error () := rfl

/-- Claim C3, amended: every failure of the identifier-segment lookup
itself — element not a mapping, no `"identifier"` key, a non-string
value under `"identifier"`, or the named key absent — silently
degrades to the stringified zero-based index; but a lookup that
succeeds with a non-string identifier value is not a fallback case
(it raises an error propagated to the caller, see
`c3_counterexample`). -/
theorem c3_lookup_failure_falls_back :
    (∀ a i, Json.isObj a = false → identSeg a i = Except.ok (toString i)) ∧
    (∀ kvs i, lookupKV kvs "identifier" = none →
      identSeg (Json.obj kvs) i = Except.ok (toString i)) ∧
    (∀ kvs w i, lookupKV kvs "identifier" = some w → Json.isStr w = false →
      identSeg (Json.obj kvs) i = Except.ok (toString i)) ∧
    (∀ kvs s i, lookupKV kvs "identifier" = some (Json.str s) → lookupKV kvs s = none →
      identSeg (Json.obj kvs) i = Except.ok (toString i)) := by
  refine ⟨?_, ?_, ?_, ?_⟩
  · intro a i h
    cases a <;> first
      | rfl
      | simp [Json.isObj] at h
  · intro kvs i h
    simp [identSeg, identifierValue, h]
  · intro kvs w i h hw
    cases w
    case str s2 => simp [Json.isStr] at hw
    all_goals simp [identSeg, identifierValue, h]
  · intro kvs s i h1 h2
    simp [identSeg, identifierValue, h1, h2]

/-- Claim C3, witness for the amended theorem: an element with no
`"identifier"` key falls back to the index segment. -/
theorem c3_witness :
    lookupKV [("x", Json.num 1)] "identifier" = none ∧
    identSeg (Json.obj [("x", Json.num 1)]) 5 = Except.ok "5" :=
  ⟨rfl, c3_lookup_failure_falls_back.2.1 [("x", Json.num 1)] 5 rfl⟩

/-- Claim C4, counterexample: a recorded key can end with the
separator character.  Flattening `{"a_": 1}` accumulates the key path
`"a__"`, and stripping one trailing character leaves the key `"a_"`,
which still ends with an underscore (contributed by the input key
itself). -/
theorem c4_counterexample :
    flattenTop (Json.obj [("a_", Json.num 1)]) = Except.ok [("a_", Json.num 1)] ∧
    ("a_" : String) = "a" ++ "_" := ⟨rfl, rfl⟩

/-- Claim C4, amended: the output mapping is exactly the replay of the
writes `out[key_name[:-1]] = value` at the traversal's actual raw
accumulated key paths (`pathsJson j ""`, the program's `key_name`
values), so every recorded key is formed by dropping the final
character of the raw path of that write; every such raw path is
either empty (bare-scalar root, where the drop is a no-op) or ends
with the appended separator, so exactly the one appended separator is
stripped; but the resulting key may itself still end with an
underscore when an input key or identifier segment does (see
`c4_counterexample`). -/
theorem c4_key_from_stripped_path (j : Json) (m : List (String × Json))
    (h : flattenTop j = Except.ok m) :
    ∃ ptr, pathsJson j "" = Except.ok ptr ∧
      m = applyWrites [] (List.map stripEntry ptr) ∧
      (∀ kv ∈ ptr, kv.1 = "" ∨ ∃ q, kv.1 = q ++ "_") ∧
      ∀ kv ∈ m, ∃ p, p ∈ ptr.map Prod.fst ∧ kv.1 = strInit p := by
  rw [flattenTop, flattenJson_eq_trace, traceJson_eq_paths] at h
  cases h1 : pathsJson j "" with
  | error e => rw [h1] at h; simp [Except.map] at h
  | ok ptr =>
    rw [h1] at h
    simp only [Except.map, Except.ok.injEq] at h
    refine ⟨ptr, rfl, h.symm, pathsJson_key_form j "" ptr (Or.inl rfl) h1, ?_⟩
    intro kv hkv
    rw [← h] at hkv
    have hk : kv.1 ∈ (List.map stripEntry ptr).map Prod.fst := by
      rcases mem_map_fst_applyWrites (List.map stripEntry ptr) [] kv.1
          (List.mem_map_of_mem Prod.fst hkv) with h2 | h2
      · simp at h2
      · exact h2
    obtain ⟨e, he, hfst⟩ := List.mem_map.mp hk
    obtain ⟨kv', hkv', hse⟩ := List.mem_map.mp he
    refine ⟨kv'.1, List.mem_map_of_mem Prod.fst hkv', ?_⟩
    rw [← hfst, ← hse]
    rfl

/-- Claim C4, witness for the amended theorem: the single write of the
flattening of `{"k": 3}` happens at the raw accumulated path `"k_"`,
which ends in the separator, and the recorded key `"k"` is that path
with its final character stripped. -/
theorem c4_witness :
    flattenTop (Json.obj [("k", Json.num 3)]) = Except.ok [("k", Json.num 3)] ∧
    (∃ ptr, pathsJson (Json.obj [("k", Json.num 3)]) "" = Except.ok ptr ∧
      [("k", Json.num 3)] = applyWrites [] (List.map stripEntry ptr) ∧
      (∀ kv ∈ ptr, kv.1 = "" ∨ ∃ q, kv.1 = q ++ "_") ∧
      ∀ kv ∈ [("k", Json.num 3)], ∃ p, p ∈ ptr.map Prod.fst ∧ kv.1 = strInit p) :=
  ⟨rfl, c4_key_from_stripped_path (Json.obj [("k", Json.num 3)]) [("k", Json.num 3)] rfl⟩

/-- Claim C5: flattening the documented example yields exactly the
keys `"key_value1_text"` and `"key_value2_text"` bound to `"value1"`
and `"value2"`, and `load` on it yields exactly two records with
sequence numbers 1 and 2, in that order. -/
theorem c5_example :
    flattenTop exC5 =
      Except.ok [("key_value1_text", Json.str "value1"),
                 ("key_value2_text", Json.str "value2")] ∧
    load exC5 "src" none = Except.ok
      [{ page_content := "\x7b\"key_value1_text\": \"value1\"\x7d",
         metadata := { source := "src", seq_num := 1 } },
       { page_content := "\x7b\"key_value2_text\": \"value2\"\x7d",
         metadata := { source := "src", seq_num := 2 } }] := ⟨rfl, rfl⟩

/-- Claim C6: an array element that is not a mapping, or has no
`"identifier"` key, or whose identifier names an absent key, gets its
stringified zero-based index as key segment (`identSeg` is exactly the
segment `flattenArr` recurses with); and flattening `{"list":[10,20]}`
yields exactly the keys `"list_0"` and `"list_1"` with values 10
and 20. -/
theorem c6_index_fallback :
    (∀ a i, Json.isObj a = false → identSeg a i = Except.ok (toString i)) ∧
    (∀ kvs i, lookupKV kvs "identifier" = none →
      identSeg (Json.obj kvs) i = Except.ok (toString i)) ∧
    (∀ kvs s i, lookupKV kvs "identifier" = some (Json.str s) → lookupKV kvs s = none →
      identSeg (Json.obj kvs) i = Except.ok (toString i)) ∧
    flattenTop (Json.obj [("list", Json.arr [Json.num 10, Json.num 20])]) =
      Except.ok [("list_0", Json.num 10), ("list_1", Json.num 20)] := by
  refine ⟨?_, ?_, ?_, rfl⟩
  · intro a i h
    cases a <;> first
      | rfl
      | simp [Json.isObj] at h
  · intro kvs i h
    simp [identSeg, identifierValue, h]
  · intro kvs s i h1 h2
    simp [identSeg, identifierValue, h1, h2]

/-- Claim C6, witness: the bare number 10 at index 0 gets segment
`"0"`. -/
theorem c6_witness :
    Json.isObj (Json.num 10) = false ∧ identSeg (Json.num 10) 0 = Except.ok "0" :=
  ⟨rfl, c6_index_fallback.1 (Json.num 10) 0 rfl⟩

/-- Claim C7: the output mapping is the replay of the traversal's
write sequence, and looking any key up in it returns the value of the
last (latest-visited) write of that key — last-write-wins; the
earlier value is no longer reachable under that key.  Determinism is
inherent: `flattenTop` is a pure function of the input, so two runs on
equal inputs yield equal mappings. -/
theorem c7_last_write_wins (j : Json) (tr : List (String × Json))
    (h : traceJson j "" = Except.ok tr) :
    flattenTop j = Except.ok (applyWrites [] tr) ∧
    ∀ key, lookupKV (applyWrites [] tr) key = lookupKV tr.reverse key := by
  constructor
  · rw [flattenTop, flattenJson_eq_trace, h]
    rfl
  · intro key
    rw [lookupKV_applyWrites]
    cases lookupKV tr.reverse key <;> simp [lookupKV]

/-- Claim C7, witness: in `exCollide` the key `"a_x"` is written
twice; the mapping holds the later value `2`. -/
theorem c7_witness :
    traceJson exCollide "" = Except.ok exCollideTr ∧
    flattenTop exCollide = Except.ok (applyWrites [] exCollideTr) ∧
    lookupKV (applyWrites [] exCollideTr) "a_x" = lookupKV exCollideTr.reverse "a_x" :=
  ⟨rfl, (c7_last_write_wins exCollide exCollideTr rfl).1,
    (c7_last_write_wins exCollide exCollideTr rfl).2 "a_x"⟩

/-- Claim C8, counterexample: completeness fails.  The document
`{"identifier": "x"}` contains the leaf scalar `"x"`, has no array
elements at all (so no element lacks a resolvable identifier), yet the
object branch skips the `"identifier"` entry entirely: flattening
yields the empty mapping and `load` emits zero records, so that leaf
appears zero times. -/
theorem c8_counterexample :
    flattenTop (Json.obj [("identifier", Json.str "x")]) = Except.ok [] ∧
    load (Json.obj [("identifier", Json.str "x")]) "src" none = Except.ok [] :=
  ⟨rfl, rfl⟩

/-- Claim C8, amended: for every finite JSON tree on which flattening
succeeds (in particular when every array element's identifier resolves
to a string), if the key paths of the traversal's leaves are pairwise
distinct, then the output mapping is exactly the in-order list of
(key path, leaf value) pairs of the traversal — every traversal leaf
(the traversal skips object entries keyed `"identifier"`) appears as
exactly one value — and `load` emits exactly one record per such
leaf. -/
theorem c8_each_leaf_once (j : Json) (tr : List (String × Json)) (s : String)
    (htr : traceJson j "" = Except.ok tr) (hnd : (tr.map Prod.fst).Nodup) :
    flattenTop j = Except.ok tr ∧ load j s none = Except.ok (emitRecords tr s) ∧
      (emitRecords tr s).length = tr.length := by
  have hflat : flattenTop j = Except.ok tr := by
    rw [flattenTop, flattenJson_eq_trace, htr]
    have happ := applyWrites_eq_append tr [] (fun k _ => rfl) hnd
    simp [Except.map, happ]
  refine ⟨hflat, ?_, ?_⟩
  · rw [load, hflat]
    rfl
  · exact emitFrom_length tr 1 s

/-- Claim C8, witness: the two leaves of `exC8` produce exactly two
records. -/
theorem c8_witness :
    (exC8tr.map Prod.fst).Nodup ∧
    (flattenTop exC8 = Except.ok exC8tr ∧
      load exC8 "s" none = Except.ok (emitRecords exC8tr "s") ∧
      (emitRecords exC8tr "s").length = exC8tr.length) :=
  ⟨by decide, c8_each_leaf_once exC8 exC8tr "s" rfl (by decide)⟩

/-- Claim C9, counterexample: a third user-visible failure kind
exists.  On the well-formed document
`{"key": [{"identifier": "n", "n": 5}]}` the file read and the parse
both succeed, yet `load` fails with the flattener's propagated
`TypeError` (non-string identifier value) — neither a file-access
error, nor a parse error, nor a successful return. -/
theorem c9_counterexample :
    loadEntry (LoadInput.parsed (Json.obj [("key", Json.arr
      [Json.obj [("identifier", Json.str "n"), ("n", Json.num 5)]])])) "s" none =
      Except.error LoadError.typeError := rfl

/-- Claim C9, amended: every invocation of the public entry point
either fails atomically — with a file-access error, a parse error, or
a `TypeError` propagated from the flattener — or succeeds and returns
the complete record sequence (one record per entry of the full
flattened mapping); a partial result is never returned. -/
theorem c9_atomic_outcome (inp : LoadInput) (s : String)
    (f : Option (Json → Metadata → Metadata)) :
    loadEntry inp s f = Except.error LoadError.fileAccess ∨
    loadEntry inp s f = Except.error LoadError.parse ∨
    loadEntry inp s f = Except.error LoadError.typeError ∨
    ∃ j m, inp = LoadInput.parsed j ∧ flattenTop j = Except.ok m ∧
      loadEntry inp s f = Except.ok (emitRecords m s) := by
  cases inp with
  | readError => exact Or.inl rfl
  | parseError => exact Or.inr (Or.inl rfl)
  | parsed j =>
    cases hm : flattenTop j with
    | error e =>
      refine Or.inr (Or.inr (Or.inl ?_))
      simp [loadEntry, load, hm, Except.map]
    | ok m =>
      refine Or.inr (Or.inr (Or.inr ⟨j, m, rfl, hm, ?_⟩))
      simp [loadEntry, load, hm, Except.map]

/-- Claim C10: a bare-scalar root flattens to the single entry
`"" ↦ scalar` (the empty key path loses no character to the strip),
and `load` yields exactly one record with sequence number 1 whose
payload is the serialization of that single-entry mapping. -/
theorem c10_scalar_root (j : Json) (s : String) (h : Json.isScalar j = true) :
    flattenTop j = Except.ok [("", j)] ∧
    load j s none = Except.ok
      [{ page_content := dumps (Json.obj [("", j)]),
         metadata := { source := s, seq_num := 1 } }] := by
  cases j with
  | obj kvs => simp [Json.isScalar] at h
  | arr xs => simp [Json.isScalar] at h
  | null => exact ⟨rfl, rfl⟩
  | bool b => exact ⟨rfl, rfl⟩
  | num n => exact ⟨rfl, rfl⟩
  | str s0 => exact ⟨rfl, rfl⟩

/-- Claim C10, witness: the document `7` yields the mapping
`[("", 7)]` and one record with payload `'\x7b"": 7\x7d'`. -/
theorem c10_witness :
    Json.isScalar (Json.num 7) = true ∧
    (flattenTop (Json.num 7) = Except.ok [("", Json.num 7)] ∧
      load (Json.num 7) "w" none = Except.ok
        [{ page_content := dumps (Json.obj [("", Json.num 7)]),
           metadata := { source := "w", seq_num := 1 } }]) :=
  ⟨rfl, c10_scalar_root (Json.num 7) "w" rfl⟩

end NestedJSON
